import Mathlib

/-!
A shallow embedding of the jarvis-commander core (Max assistant): the
thought engine (`src/core/thought_engine.py`), the free-talk controller
(`src/core/free_talk.py`), the event bus (`src/core/event_bus.py`), the
skill registry (`src/skills/__init__.py`) and the Brain orchestrator
(`src/core/brain.py`), together with theorems settling the frozen claims.

Python floats are modelled as `Rat`; timestamps and identifiers are
passed in as parameters (the source derives them from the wall clock and
a random generator).
-/

namespace Max

/-! ## Thought engine state (`src/core/thought_engine.py`) -/

/-- One entry of the shared `_THOUGHTS` buffer, as built by `_add_thought`. -/
structure Thought where
  id : String
  content : String
  category : String
  speak_score : Rat
  timestamp_epoch : Rat
  spoken : Bool
deriving DecidableEq

/-- The buffer bound `_MAX_THOUGHTS = 100`. -/
def MAX_THOUGHTS : Nat := 100

/-- The keys of `THOUGHT_CATEGORIES`. -/
def THOUGHT_CATEGORIES : List String :=
  ["observation", "analysis", "opinion", "plan", "curiosity",
   "environmental", "reflection", "alert"]

/-- The thought dict built inside `_add_thought`: note the score is
`min(speak_score, 1.0)` — an upper clamp only.  The id and timestamp are
parameters (the source takes them from `datetime.now()` / `random`). -/
def mkThought (id content category : String) (speak_score ts : Rat) : Thought :=
  { id := id
    content := content
    category := category
    speak_score := min speak_score 1
    timestamp_epoch := ts
    spoken := false }

/-- The eviction loop of `_add_thought`:
`while len(_THOUGHTS) > _MAX_THOUGHTS: _THOUGHTS.pop(0)`. -/
def trimBuffer (buf : List Thought) : List Thought :=
  if buf.length > MAX_THOUGHTS then trimBuffer buf.tail else buf
termination_by buf.length
decreasing_by
  simp_wf
  cases buf with
  | nil => simp [MAX_THOUGHTS] at *
  | cons a l => simp

/-- The body of `_add_thought`: append the new thought, then evict from the
front while over capacity. -/
def addThought (buf : List Thought) (id content category : String)
    (speak_score ts : Rat) : List Thought :=
  trimBuffer (buf ++ [mkThought id content category speak_score ts])

/-- The parameters `_add_thought` receives for one call (id and timestamp
come from the environment). -/
structure ThoughtParams where
  id : String
  content : String
  category : String
  speak_score : Rat
  ts : Rat
deriving DecidableEq

/-- The function `_add_thought` as a fold step over its call parameters. -/
def addThoughtP (buf : List Thought) (p : ThoughtParams) : List Thought :=
  addThought buf p.id p.content p.category p.speak_score p.ts

/-- The thought built by `_add_thought` from packaged parameters. -/
def mkThoughtP (p : ThoughtParams) : Thought :=
  mkThought p.id p.content p.category p.speak_score p.ts

/-! ## Speakable-thought filter and free talk (`src/core/free_talk.py`) -/

/-- The eligibility predicate of `get_speakable_thoughts`: timestamp newer
than `now - since_seconds`, `speak_score > 0.5`, not yet spoken. -/
def speakableB (now since : Rat) (t : Thought) : Bool :=
  decide (now - since < t.timestamp_epoch) &&
  decide ((1 : Rat)/2 < t.speak_score) && !t.spoken

/-- The filter `get_speakable_thoughts(since_seconds)` over the buffer. -/
def getSpeakableThoughts (now since : Rat) (buf : List Thought) : List Thought :=
  buf.filter (speakableB now since)

/-- Python `max(thoughts, key=lambda t: t.get("speak_score", 0))`: scan left
to right, replacing the current best only on a strictly larger key. -/
def pythonMax : Thought → List Thought → Thought
  | best, [] => best
  | best, t :: rest =>
      pythonMax (if best.speak_score < t.speak_score then t else best) rest

/-- The function `mark_thought_spoken`: set the spoken flag on the first
buffer entry with the given id (the source breaks after the first match). -/
def markSpoken : List Thought → String → List Thought
  | [], _ => []
  | t :: rest, tid =>
      if t.id = tid then { t with spoken := true } :: rest
      else t :: markSpoken rest tid

/-- The observable outcome of one iteration of `_talk_loop`: the thought
selected by `max` (if the loop reached selection), whether an emission
completed, and the updated buffer and throttle timestamp. -/
structure TalkOutcome where
  selected : Option Thought
  emitted : Bool
  buf : List Thought
  last_spoke : Rat
deriving DecidableEq

/-- One iteration of `FreeTalkController._talk_loop`.  After selection the
source re-checks `_user_speaking`, skips empty content, and only marks the
thought spoken and resets `_last_spoke` when `speak_blocking` returned
without raising (`speakOk`); every one of those skip paths leaves buffer
and throttle untouched (`continue`), so they are collapsed into the
single no-emission branch here. -/
def talkStep (paused user_speaking : Bool) (last_spoke minInterval now : Rat)
    (buf : List Thought) (speakOk : Bool) : TalkOutcome :=
  if paused || user_speaking then ⟨none, false, buf, last_spoke⟩
  else if now - last_spoke < minInterval then ⟨none, false, buf, last_spoke⟩
  else
    match getSpeakableThoughts now (minInterval + 10) buf with
    | [] => ⟨none, false, buf, last_spoke⟩
    | t :: rest =>
      if !user_speaking && !((pythonMax t rest).content == "") && speakOk then
        ⟨some (pythonMax t rest), true,
         markSpoken buf (pythonMax t rest).id, now⟩
      else ⟨some (pythonMax t rest), false, buf, last_spoke⟩

/-! ## Thought cycle deduplication (`ThoughtEngine._run_thought_cycle`) -/

/-- One call of `_run_thought_cycle`, after `_think_loop` has already
incremented the cycle counter.  Returns the new `_last_context_hash` and
the new buffer; `deepThink` is the buffer transformation `_deep_think`
performs when the cycle proceeds to generation. -/
def runThoughtCycle (brainPresent : Bool) (cycle_count : Nat)
    (last_hash ctx_hash : String) (deepThink : List Thought → List Thought)
    (buf : List Thought) : String × List Thought :=
  if !brainPresent then (last_hash, buf)
  else if ctx_hash = last_hash ∧ cycle_count % 3 ≠ 0 then (last_hash, buf)
  else (ctx_hash, deepThink buf)

/-! ## Thought reply parsing (`ThoughtEngine._deep_think`)

Python string primitives are modelled explicitly over character lists so
that they stay kernel-computable. -/

/-- The whitespace recognised by Python `str.strip()` (the characters
occurring in this code base). -/
def isPySpace (c : Char) : Bool :=
  c = ' ' || c = '\t' || c = '\n' || c = '\r'

/-- Python `s.strip()`: drop whitespace from both ends. -/
def pyStrip (s : List Char) : List Char :=
  ((s.dropWhile isPySpace).reverse.dropWhile isPySpace).reverse

/-- Python `s.split(sep)` for a one-character separator: split at every
occurrence, keeping empty pieces. -/
def pySplit (sep : Char) : List Char → List (List Char)
  | [] => [[]]
  | c :: rest =>
      let r := pySplit sep rest
      if c = sep then [] :: r
      else
        match r with
        | [] => [[c]]
        | g :: gs => (c :: g) :: gs

/-- Python `s.upper()`. -/
def pyUpper (s : List Char) : List Char := s.map Char.toUpper

/-- Python `s.lower()`. -/
def pyLower (s : List Char) : List Char := s.map Char.toLower

/-- Python `s.split(":", 1)[1]`: everything after the first colon.  The
source only evaluates this on lines that contain a colon (the
`startswith` guards); on a colon-free string Python would raise and this
model returns the empty string. -/
def pyAfterColon : List Char → List Char
  | [] => []
  | c :: rest => if c = ':' then rest else pyAfterColon rest

/-- The category, score and text accumulated by the parsing loop of
`_deep_think`. -/
structure ParsedThought where
  category : String
  speak_score : Rat
  thought_text : String
deriving DecidableEq

/-- The line-by-line parse of a thought-cycle backend reply in
`_deep_think`.  `toFloat` models Python `float(...)`, returning `none` on
`ValueError` (in which case the default score survives); a CATEGORY value
outside the enumerated set keeps the default category. -/
def parseThoughtReply (toFloat : String → Option Rat) (content : String) :
    ParsedThought :=
  (pySplit '\n' content.toList).foldl (fun acc line =>
    let l := pyStrip line
    if "CATEGORY:".toList.isPrefixOf (pyUpper l) then
      let cat := String.mk (pyLower (pyStrip (pyAfterColon l)))
      if THOUGHT_CATEGORIES.contains cat then { acc with category := cat }
      else acc
    else if "SPEAK_SCORE:".toList.isPrefixOf (pyUpper l) then
      match toFloat (String.mk (pyStrip (pyAfterColon l))) with
      | some v => { acc with speak_score := v }
      | none => acc
    else if "THOUGHT:".toList.isPrefixOf (pyUpper l) then
      { acc with thought_text := String.mk (pyStrip (pyAfterColon l)) }
    else acc)
    ⟨"observation", 1/2, String.mk (pyStrip content.toList)⟩

/-- The tail of `_deep_think`: append the parsed thought to the buffer only
when the text is non-empty and longer than 5 characters. -/
def deepThinkUpdate (toFloat : String → Option Rat) (content id : String)
    (ts : Rat) (buf : List Thought) : List Thought :=
  let p := parseThoughtReply toFloat content
  if p.thought_text ≠ "" ∧ p.thought_text.length > 5 then
    addThought buf id p.thought_text p.category p.speak_score ts
  else buf

/-! ## Python dict as an association list -/

/-- Python dict assignment `d[k] = v`: overwrite in place, else append. -/
def dictInsert {α : Type} : List (String × α) → String → α → List (String × α)
  | [], k, v => [(k, v)]
  | (k', v') :: rest, k, v =>
      if k' = k then (k', v) :: rest else (k', v') :: dictInsert rest k v

/-- Python dict lookup `d.get(k)`. -/
def dictLookup {α : Type} : List (String × α) → String → Option α
  | [], _ => none
  | (k', v') :: rest, k => if k' = k then some v' else dictLookup rest k

/-! ## Skill registry (`src/skills/__init__.py`) -/

/-- Keyword arguments of a skill call, with opaque values. -/
abbrev SkillArgs : Type := List (String × String)

/-- The entry `_SKILLS[name]` stored by the `skill` decorator.  The
executor may raise (`Except.error`) or return no value (`none`, coerced
to the fixed fallback string by `execute`). -/
structure SkillInfo where
  func : SkillArgs → Except String (Option String)
  description : String
  paramsSchema : String
  is_async : Bool

/-- The distinct failures of `SkillRegistry.execute`: the `KeyError`
raised for an unregistered name (carrying the name and the registered
names used in its message), or a re-raised executor exception. -/
inductive SkillError where
  | unknownSkill (name : String) (available : List String)
  | executorError (msg : String)
deriving DecidableEq

/-- The message of the `KeyError` raised for an unregistered skill: the
name followed by the first 10 registered names and an ellipsis when more
exist (the Python list rendering is abbreviated to the joined names
here). -/
def unknownSkillMessage (name : String) (available : List String) : String :=
  "Unknown skill: \x27" ++ name ++ "\x27. Available: " ++
  String.intercalate ", " (available.take 10) ++
  (if available.length > 10 then "..." else "")

/-- A rendering of a `SkillError` as the string interpolated by the
caller (`str(e)` in Python). -/
def SkillError.text : SkillError → String
  | .unknownSkill n avail => unknownSkillMessage n avail
  | .executorError m => m

/-- The `skill` decorator registers under `_SKILLS[name]` — a plain dict
assignment, so re-registration overwrites. -/
def registerSkill (skills : List (String × SkillInfo)) (name : String)
    (info : SkillInfo) : List (String × SkillInfo) :=
  dictInsert skills name info

/-- The body of `SkillRegistry.execute`: raise `KeyError` when the name is
unregistered, otherwise call the executor (sync and async executors are
bridged to the same direct call in this embedding), re-raising its
exception, and coerce a missing return value to the fixed string. -/
def registryExecute (skills : List (String × SkillInfo)) (name : String)
    (args : SkillArgs) : Except SkillError String :=
  match dictLookup skills name with
  | none => .error (.unknownSkill name (skills.map Prod.fst))
  | some info =>
      match info.func args with
      | .error e => .error (.executorError e)
      | .ok none => .ok "Done."
      | .ok (some r) => .ok r

/-! ## Orchestrator tool dispatch (`Brain._execute_tool_calls`) -/

/-- One requested tool call, as parsed from a backend response. -/
structure ToolCall where
  name : String
  arguments : SkillArgs
deriving DecidableEq

/-- One entry of the results list built by `_execute_tool_calls`
(tool name, stringified result, success flag). -/
structure ToolResult where
  tool : String
  result : String
  success : Bool
deriving DecidableEq

/-- The body of one iteration of the `_execute_tool_calls` loop: missing
registry and raised exceptions become failed results, a normal return a
successful one. -/
def singleToolResult (registry : Option (List (String × SkillInfo)))
    (c : ToolCall) : ToolResult :=
  match registry with
  | none => ⟨c.name, "No skill registry.", false⟩
  | some skills =>
      match registryExecute skills c.name c.arguments with
      | .ok out => ⟨c.name, out, true⟩
      | .error e => ⟨c.name, "Error: " ++ c.name ++ ": " ++ e.text, false⟩

/-- The dispatch loop `_execute_tool_calls`: one result appended per
requested call, in order. -/
def executeToolCalls (registry : Option (List (String × SkillInfo))) :
    List ToolCall → List ToolResult
  | [] => []
  | c :: rest => singleToolResult registry c :: executeToolCalls registry rest

/-! ## Event bus (`src/core/event_bus.py`) -/

/-- The `EventBus` object: per-topic handler lists and the latest state
snapshot per topic.  Handlers may raise (`Except.error`). -/
structure EventBus (δ : Type) where
  subscribers : List (String × List (δ → Except String Unit))
  state : List (String × δ)

/-- The method `subscribe`: append the handler to the topic list
(`defaultdict(list)` semantics). -/
def busSubscribe {δ : Type} (bus : EventBus δ) (topic : String)
    (h : δ → Except String Unit) : EventBus δ :=
  { bus with
    subscribers :=
      dictInsert bus.subscribers topic
        ((dictLookup bus.subscribers topic).getD [] ++ [h]) }

/-- The method `publish`: store the latest state for the topic, then run
every handler of the topic, each inside its own try/except that only logs
— the error-log lines are returned alongside the updated bus, and the
subscriber lists are untouched. -/
def busPublish {δ : Type} (bus : EventBus δ) (topic : String) (data : δ) :
    EventBus δ × List String :=
  let handlers := (dictLookup bus.subscribers topic).getD []
  let log := handlers.foldl (fun acc h =>
    match h data with
    | .ok _ => acc
    | .error e => acc ++ ["Handler error on \x27" ++ topic ++ "\x27: " ++ e])
    []
  ({ bus with state := dictInsert bus.state topic data }, log)

/-! ## Orchestrator think loop (`Brain.think`) -/

/-- A backend response after normalisation by the `_chat_*` methods:
text content plus the list of requested tool calls. -/
structure LLMResponse where
  content : String
  tool_calls : List ToolCall

/-- One entry of `conversation_history` / `messages`. -/
structure ChatMessage where
  role : String
  content : String
deriving DecidableEq

/-- The fallback applied to the final response:
`final = response["content"] or "Action completed."`. -/
def finalText (r : LLMResponse) : String :=
  if r.content = "" then "Action completed." else r.content

/-- The tool-calling loop of `Brain.think`.  The reasoning backend is an
oracle `bk` indexed by how many `_chat` calls the turn has made (call 0 is
the one before the loop); each round executes the requested calls through
the registry and re-queries.  Returns the final iteration count, the
executed result batches (one per round) and the final response, or the
exception propagated from a backend call. -/
def brainLoop (registry : Option (List (String × SkillInfo)))
    (bk : Nat → Except String LLMResponse) (cap iter : Nat)
    (response : LLMResponse) (executed : List (List ToolResult)) :
    Except String (Nat × List (List ToolResult) × LLMResponse) :=
  if response.tool_calls ≠ [] ∧ iter < cap then
    let results := executeToolCalls registry response.tool_calls
    match bk (iter + 1) with
    | .ok r => brainLoop registry bk cap (iter + 1) r (executed ++ [results])
    | .error e => .error e
  else .ok (iter, executed, response)
termination_by cap - iter
decreasing_by simp_wf; omega

/-- The history trim `_trim_history`: keep the last `max_history * 2`
entries. -/
def trimHistory (maxHistory : Nat) (l : List ChatMessage) : List ChatMessage :=
  if l.length > maxHistory * 2 then l.drop (l.length - maxHistory * 2) else l

/-- The method `Brain.think`: append the user message, query the backend,
run the tool loop up to `max_concurrent_tools` rounds, then append the
assistant message and trim; any backend exception is returned as a single
error-text response with the history left as it was at the failure. -/
def think (registry : Option (List (String × SkillInfo)))
    (bk : Nat → Except String LLMResponse) (cap maxHistory : Nat)
    (hist : List ChatMessage) (user_input : String) :
    List ChatMessage × String :=
  let hist1 := hist ++ [⟨"user", user_input⟩]
  match bk 0 with
  | .error e => (hist1, "Error while thinking: " ++ e)
  | .ok r0 =>
    match brainLoop registry bk cap 0 r0 [] with
    | .error e => (hist1, "Error while thinking: " ++ e)
    | .ok (_, _, r) =>
      let final := finalText r
      (trimHistory maxHistory (hist1 ++ [⟨"assistant", final⟩]), final)

/-- The tool-result batches of the first `m` rounds against a pure
backend `resp`. -/
def roundsUpTo (registry : Option (List (String × SkillInfo)))
    (resp : Nat → LLMResponse) (m : Nat) : List (List ToolResult) :=
  (List.range m).map (fun i => executeToolCalls registry (resp i).tool_calls)

/-! ## Concrete inputs used by the witness theorems -/

/-- A concrete sequence of 150 thought-cycle appends. -/
def c4WitnessParams : List ThoughtParams :=
  (List.range 150).map (fun i =>
    { id := toString i, content := "tick", category := "observation",
      speak_score := 1/2, ts := 0 })

/-- A concrete speakable thought. -/
def c3Thought : Thought :=
  { id := "t1", content := "hello", category := "observation",
    speak_score := 9/10, timestamp_epoch := 45, spoken := false }

/-- A concrete thought produced by a deep-think cycle. -/
def c5Thought : Thought :=
  { id := "x1", content := "the scene changed", category := "observation",
    speak_score := 3/4, timestamp_epoch := 0, spoken := false }

/-- A first registration for a skill name. -/
def c6Info1 : SkillInfo :=
  { func := fun _ => .ok (some "one"), description := "first version",
    paramsSchema := "object", is_async := false }

/-- A second registration for the same skill name. -/
def c6Info2 : SkillInfo :=
  { func := fun _ => .ok (some "two"), description := "second version",
    paramsSchema := "object", is_async := true }

/-- A registry with one skill whose executor always raises. -/
def c2FailSkills : List (String × SkillInfo) :=
  [("explode",
    { func := fun _ => .error "boom", description := "always fails",
      paramsSchema := "object", is_async := false })]

/-- A handler that raises on every event. -/
def c7Handler : Nat → Except String Unit := fun _ => .error "bad"

/-- A bus with one raising handler subscribed to one topic. -/
def c7Bus : EventBus Nat :=
  { subscribers := [("sentinel.camera", [c7Handler])], state := [] }

/-- A backend stub that requests a capability on queries 1 and 2 and none
on query 3. -/
def c1Resp : Nat → LLMResponse := fun i =>
  if i < 2 then
    { content := "calling", tool_calls := [{ name := "t", arguments := [] }] }
  else { content := "done", tool_calls := [] }

/-- A backend stub that requests a capability on queries 1 through 7. -/
def c1RespLong : Nat → LLMResponse := fun i =>
  if i < 7 then
    { content := "calling", tool_calls := [{ name := "t", arguments := [] }] }
  else { content := "done", tool_calls := [] }

/-- A response that always requests one capability. -/
def c9Resp : Nat → LLMResponse := fun _ =>
  { content := "calling", tool_calls := [{ name := "t", arguments := [] }] }

/-- A backend whose second call raises. -/
def c9Backend : Nat → Except String LLMResponse := fun i =>
  if i = 0 then .ok (c9Resp 0) else .error "connection refused"

/-! ### Buffer lemmas -/

theorem trimBuffer_eq_drop (buf : List Thought) :
    trimBuffer buf = buf.drop (buf.length - MAX_THOUGHTS) := by
  have hM : MAX_THOUGHTS = 100 := rfl
  induction buf using trimBuffer.induct with
  | case1 buf h ih =>
    rw [trimBuffer, if_pos h, ih]
    cases buf with
    | nil => simp [hM] at h
    | cons a l =>
      simp only [List.length_cons] at h
      simp only [List.tail_cons, List.length_cons]
      have h1 : l.length + 1 - MAX_THOUGHTS = (l.length - MAX_THOUGHTS) + 1 := by
        omega
      rw [h1]
      simp
  | case2 buf h =>
    rw [trimBuffer, if_neg h]
    have h0 : buf.length - MAX_THOUGHTS = 0 := by omega
    simp [h0]

theorem trimBuffer_length_le (buf : List Thought) :
    (trimBuffer buf).length ≤ MAX_THOUGHTS := by
  rw [trimBuffer_eq_drop]
  simp only [List.length_drop]
  omega

theorem addThoughtP_eq (buf : List Thought) (p : ThoughtParams) :
    addThoughtP buf p = trimBuffer (buf ++ [mkThoughtP p]) := rfl

/-- Folding `_add_thought` from the empty buffer keeps exactly the most
recent `MAX_THOUGHTS` entries, in order. -/
theorem foldl_addThoughtP_eq_drop (ps : List ThoughtParams) :
    List.foldl addThoughtP [] ps =
      (ps.map mkThoughtP).drop (ps.length - MAX_THOUGHTS) := by
  have hM : MAX_THOUGHTS = 100 := rfl
  induction ps using List.reverseRecOn with
  | nil => simp
  | append_singleton ps p ih =>
    rw [List.foldl_append, List.foldl_cons, List.foldl_nil, ih,
      addThoughtP_eq, trimBuffer_eq_drop]
    have hdlen : ((ps.map mkThoughtP).drop (ps.length - MAX_THOUGHTS)).length =
        ps.length - (ps.length - MAX_THOUGHTS) := by
      simp [List.length_drop]
    have hlen : ((ps.map mkThoughtP).drop (ps.length - MAX_THOUGHTS) ++
        [mkThoughtP p]).length = (ps.length - (ps.length - MAX_THOUGHTS)) + 1 := by
      simp [List.length_append, hdlen]
    rw [hlen]
    simp only [List.map_append, List.map_cons, List.map_nil,
      List.length_append, List.length_cons, List.length_nil]
    by_cases hc : ps.length < MAX_THOUGHTS
    · have h1 : (ps.length - (ps.length - MAX_THOUGHTS)) + 1 - MAX_THOUGHTS = 0 := by
        omega
      have h2 : ps.length - MAX_THOUGHTS = 0 := by omega
      have h3 : ps.length + 1 - MAX_THOUGHTS = 0 := by omega
      simp [h1, h2, h3]
    · push_neg at hc
      have h1 : (ps.length - (ps.length - MAX_THOUGHTS)) + 1 - MAX_THOUGHTS = 1 := by
        omega
      rw [h1]
      have h2 : ps.length + 1 - MAX_THOUGHTS = (ps.length - MAX_THOUGHTS) + 1 := by
        omega
      rw [h2]
      have e1 : ((ps.map mkThoughtP).drop (ps.length - MAX_THOUGHTS) ++
          [mkThoughtP p]).drop 1 =
          ((ps.map mkThoughtP).drop (ps.length - MAX_THOUGHTS)).drop 1 ++
          [mkThoughtP p] :=
        List.drop_append_of_le_length (by rw [hdlen]; omega)
      have e2 : (ps.map mkThoughtP ++ [mkThoughtP p]).drop
          ((ps.length - MAX_THOUGHTS) + 1) =
          (ps.map mkThoughtP).drop ((ps.length - MAX_THOUGHTS) + 1) ++
          [mkThoughtP p] :=
        List.drop_append_of_le_length (by simp only [List.length_map]; omega)
      rw [e1, e2, List.drop_drop]

/-! ### Dict, dispatch and bus lemmas -/

theorem dictInsert_insert_same {α : Type} (d : List (String × α)) (k : String)
    (v1 v2 : α) :
    dictInsert (dictInsert d k v1) k v2 = dictInsert d k v2 := by
  induction d with
  | nil => simp [dictInsert]
  | cons kv rest ih =>
    obtain ⟨k', v'⟩ := kv
    by_cases hk : k' = k
    · simp [dictInsert, hk]
    · simp [dictInsert, hk, ih]

theorem executeToolCalls_eq_map (registry : Option (List (String × SkillInfo)))
    (calls : List ToolCall) :
    executeToolCalls registry calls = calls.map (singleToolResult registry) := by
  induction calls with
  | nil => rfl
  | cons c rest ih => simp [executeToolCalls, ih]

theorem busFold_mem_mono {δ : Type} (topic : String) (data : δ)
    (hs : List (δ → Except String Unit)) (acc : List String) (x : String)
    (hx : x ∈ acc) :
    x ∈ hs.foldl (fun acc h =>
      match h data with
      | .ok _ => acc
      | .error e => acc ++ ["Handler error on \x27" ++ topic ++ "\x27: " ++ e])
      acc := by
  induction hs generalizing acc with
  | nil => simpa using hx
  | cons h rest ih =>
    cases hh : h data with
    | ok u =>
      simp only [List.foldl_cons, hh]
      exact ih acc hx
    | error e =>
      simp only [List.foldl_cons, hh]
      exact ih _ (List.mem_append_left _ hx)

theorem busFold_mem_of_error {δ : Type} (topic : String) (data : δ)
    (hs : List (δ → Except String Unit)) (h : δ → Except String Unit)
    (e : String) (hmem : h ∈ hs) (herr : h data = .error e) :
    ∀ acc, ("Handler error on \x27" ++ topic ++ "\x27: " ++ e) ∈
      hs.foldl (fun acc h =>
        match h data with
        | .ok _ => acc
        | .error e => acc ++
            ["Handler error on \x27" ++ topic ++ "\x27: " ++ e])
        acc := by
  induction hs with
  | nil => simp at hmem
  | cons h' rest ih =>
    intro acc
    rcases List.mem_cons.mp hmem with rfl | hmem'
    · simp only [List.foldl_cons, herr]
      exact busFold_mem_mono topic data rest _ _
        (List.mem_append_right _ (by simp))
    · cases hh : h' data with
      | ok u =>
        simp only [List.foldl_cons, hh]
        exact ih hmem' acc
      | error e' =>
        simp only [List.foldl_cons, hh]
        exact ih hmem' _

/-! ## Claim C6 -/

/-- C6: registering the same capability name twice leaves the registry in
exactly the state a single registration of the second executor would —
so every later lookup or invocation behaves as last-write-wins — and
invoking a name that is not registered fails with the distinct
unknown-skill error carrying that name. -/
theorem C6_overwrite_and_unknown (skills : List (String × SkillInfo))
    (name : String) (i1 i2 : SkillInfo) (args : SkillArgs) :
    registerSkill (registerSkill skills name i1) name i2 =
      registerSkill skills name i2 ∧
    (dictLookup skills name = none →
      registryExecute skills name args =
        .error (.unknownSkill name (skills.map Prod.fst))) := by
  constructor
  · exact dictInsert_insert_same skills name i1 i2
  · intro hnone
    simp [registryExecute, hnone]

/-- Witness for C6: double registration of one name collapses to the
second, and invoking an unregistered name yields the unknown-skill
error. -/
theorem C6_witness :
    registerSkill (registerSkill [] "open_app" c6Info1) "open_app" c6Info2 =
      registerSkill [] "open_app" c6Info2 ∧
    registryExecute [] "missing" [] =
      .error (.unknownSkill "missing" []) :=
  ⟨(C6_overwrite_and_unknown [] "open_app" c6Info1 c6Info2 []).1,
   (C6_overwrite_and_unknown [] "missing" c6Info1 c6Info2 []).2 rfl⟩

/-! ## Claim C2 -/

/-- C2: the dispatch loop produces exactly one result per requested call,
in request order, each depending only on its own call (so one failure
cannot affect the others), and an executor exception surfaces as a
success = false result embedding the error text; the loop itself is a
total function and never raises. -/
theorem C2_dispatch_isolation (registry : Option (List (String × SkillInfo)))
    (calls : List ToolCall) :
    (executeToolCalls registry calls).length = calls.length ∧
    (∀ i : Nat, (executeToolCalls registry calls)[i]? =
      (calls[i]?).map (singleToolResult registry)) ∧
    (∀ skills c e, registry = some skills →
      registryExecute skills c.name c.arguments = .error e →
      singleToolResult registry c =
        { tool := c.name, result := "Error: " ++ c.name ++ ": " ++ e.text,
          success := false }) := by
  refine ⟨?_, ?_, ?_⟩
  · rw [executeToolCalls_eq_map]
    simp
  · intro i
    rw [executeToolCalls_eq_map]
    simp [List.getElem?_map]
  · intro skills c e hreg herr
    subst hreg
    simp [singleToolResult, herr]

/-- Witness for C2: two calls to a raising executor produce two failed
results and the failure is embedded in the result text. -/
theorem C2_witness :
    (executeToolCalls (some c2FailSkills)
      [{ name := "explode", arguments := [] },
       { name := "explode", arguments := [] }]).length = 2 ∧
    registryExecute c2FailSkills "explode" [] =
      .error (.executorError "boom") ∧
    singleToolResult (some c2FailSkills) { name := "explode", arguments := [] } =
      { tool := "explode", result := "Error: explode: boom",
        success := false } :=
  ⟨(C2_dispatch_isolation (some c2FailSkills)
      [{ name := "explode", arguments := [] },
       { name := "explode", arguments := [] }]).1,
   rfl,
   (C2_dispatch_isolation (some c2FailSkills) []).2.2 c2FailSkills
     { name := "explode", arguments := [] } (.executorError "boom") rfl rfl⟩

/-! ## Claim C7 -/

/-- C7: publishing stores the new state, leaves every subscription list
untouched, and a handler raising on the published data only contributes a
per-handler log line — publish is a total function, so no handler error
reaches the publisher. -/
theorem C7_publish_handler_isolation {δ : Type} (bus : EventBus δ)
    (topic : String) (data : δ) :
    (busPublish bus topic data).1.subscribers = bus.subscribers ∧
    (busPublish bus topic data).1.state = dictInsert bus.state topic data ∧
    (∀ h, h ∈ (dictLookup bus.subscribers topic).getD [] →
      ∀ e, h data = .error e →
        ("Handler error on \x27" ++ topic ++ "\x27: " ++ e) ∈
          (busPublish bus topic data).2) := by
  refine ⟨rfl, rfl, ?_⟩
  intro h hmem e herr
  exact busFold_mem_of_error topic data _ h e hmem herr []

/-- Witness for C7: a raising handler is logged and the publisher returns
normally with the subscription intact. -/
theorem C7_witness :
    c7Handler 0 = .error "bad" ∧
    ("Handler error on \x27sentinel.camera\x27: bad") ∈
      (busPublish c7Bus "sentinel.camera" 0).2 :=
  ⟨rfl,
   (C7_publish_handler_isolation c7Bus "sentinel.camera" 0).2.2 c7Handler
     (by simp [c7Bus, dictLookup]) "bad" rfl⟩

/-! ## Claim C4 -/

/-- C4: the ThoughtBuffer never holds more than 100 entries, and appending
is FIFO with oldest-first eviction — after any sequence of 150 appends
starting from the empty buffer, exactly the last 100 thoughts remain, in
their original relative order. -/
theorem C4_buffer_bounded_fifo :
    (∀ (buf : List Thought) (p : ThoughtParams),
      (addThoughtP buf p).length ≤ 100) ∧
    (∀ ps : List ThoughtParams, ps.length = 150 →
      List.foldl addThoughtP [] ps = (ps.drop 50).map mkThoughtP) := by
  constructor
  · intro buf p
    exact trimBuffer_length_le _
  · intro ps hlen
    rw [foldl_addThoughtP_eq_drop, hlen]
    have h50 : (150 : Nat) - MAX_THOUGHTS = 50 := rfl
    rw [h50, ← List.map_drop]

/-- Witness for C4 at a concrete sequence of 150 appends. -/
theorem C4_witness :
    c4WitnessParams.length = 150 ∧
    List.foldl addThoughtP [] c4WitnessParams =
      (c4WitnessParams.drop 50).map mkThoughtP :=
  ⟨by simp [c4WitnessParams],
   C4_buffer_bounded_fifo.2 c4WitnessParams (by simp [c4WitnessParams])⟩

/-! ## Claim C8 -/

/-- C8 as stated is false: `_add_thought` computes
`min(speak_score, 1.0)`, which does not clamp from below, so a thought
created with score `-1/2` is stored with score `-1/2`, outside
`[0.0, 1.0]`. -/
theorem C8_counterexample :
    addThought [] "t1" "hi" "observation" (-(1/2)) 0 =
      [{ id := "t1", content := "hi", category := "observation",
         speak_score := -(1/2), timestamp_epoch := 0, spoken := false }] ∧
    ¬ ((0 : Rat) ≤ -(1/2)) := by
  constructor
  · rw [addThought, trimBuffer_eq_drop]
    have h0 : ([] ++ [mkThought "t1" "hi" "observation" (-(1/2)) 0]).length -
        MAX_THOUGHTS = 0 := rfl
    rw [h0]
    simp only [List.drop_zero, List.nil_append]
    rw [mkThought]
    have hmin : min (-(1/2) : Rat) 1 = -(1/2) := by
      rw [min_eq_left]
      norm_num
    rw [hmin]
  · norm_num

/-- C8 amended: the stored speak_score equals `min(supplied, 1.0)` — it
never exceeds 1.0 (scores above 1.0 are clamped down), but scores below
0.0 are stored unchanged rather than clamped up to 0.0. -/
theorem C8_amended_upper_clamp_only (id content category : String)
    (s ts : Rat) :
    (mkThought id content category s ts).speak_score = min s 1 ∧
    (mkThought id content category s ts).speak_score ≤ 1 ∧
    (s < 0 → (mkThought id content category s ts).speak_score = s) := by
  refine ⟨rfl, min_le_right _ _, ?_⟩
  intro hs
  show min s 1 = s
  exact min_eq_left (by linarith)

/-- Witness for amended C8 at the concrete supplied score `-2`. -/
theorem C8_amended_witness :
    ((-2 : Rat) < 0) ∧
    (mkThought "a" "b" "observation" (-2) 0).speak_score = -2 :=
  ⟨by norm_num,
   (C8_amended_upper_clamp_only "a" "b" "observation" (-2) 0).2.2 (by norm_num)⟩

/-! ## Claim C5 -/

/-- C5: when the detection fingerprint equals the one remembered from the
previous cycle, a cycle whose counter is not divisible by 3 leaves the
buffer (and the remembered hash) unchanged, while a cycle whose counter is
divisible by 3 proceeds to thought generation regardless. -/
theorem C5_dedup_heartbeat (cycle : Nat) (h : String)
    (dt : List Thought → List Thought) (buf : List Thought) :
    (cycle % 3 ≠ 0 → runThoughtCycle true cycle h h dt buf = (h, buf)) ∧
    (cycle % 3 = 0 → runThoughtCycle true cycle h h dt buf = (h, dt buf)) := by
  constructor
  · intro hc
    simp [runThoughtCycle, hc]
  · intro hc
    simp [runThoughtCycle, hc]

/-- Witness for C5 at cycles 4 (skipped) and 6 (heartbeat override). -/
theorem C5_witness :
    ((4 : Nat) % 3 ≠ 0 ∧
      runThoughtCycle true 4 "fp" "fp" (fun b => b ++ [c5Thought]) [] =
        ("fp", [])) ∧
    ((6 : Nat) % 3 = 0 ∧
      runThoughtCycle true 6 "fp" "fp" (fun b => b ++ [c5Thought]) [] =
        ("fp", [c5Thought])) :=
  ⟨⟨by decide, (C5_dedup_heartbeat 4 "fp" (fun b => b ++ [c5Thought]) []).1
      (by decide)⟩,
   ⟨by decide, (C5_dedup_heartbeat 6 "fp" (fun b => b ++ [c5Thought]) []).2
      (by decide)⟩⟩

/-! ### Free-talk lemmas -/

theorem pythonMax_mem (b : Thought) (l : List Thought) :
    pythonMax b l ∈ b :: l := by
  induction l generalizing b with
  | nil => simp [pythonMax]
  | cons t rest ih =>
    rw [pythonMax]
    have h := ih (if b.speak_score < t.speak_score then t else b)
    by_cases hlt : b.speak_score < t.speak_score
    · rw [if_pos hlt] at h ⊢
      rcases List.mem_cons.mp h with heq | hmem
      · rw [heq]
        simp
      · simp [List.mem_cons_of_mem, hmem]
    · rw [if_neg hlt] at h ⊢
      rcases List.mem_cons.mp h with heq | hmem
      · rw [heq]
        simp
      · simp [List.mem_cons_of_mem, hmem]

theorem pythonMax_le (b : Thought) (l : List Thought) :
    ∀ u ∈ b :: l, u.speak_score ≤ (pythonMax b l).speak_score := by
  induction l generalizing b with
  | nil =>
    intro u hu
    rw [List.mem_singleton] at hu
    rw [hu, pythonMax]
  | cons t rest ih =>
    intro u hu
    rw [pythonMax]
    have hb : b.speak_score ≤
        (if b.speak_score < t.speak_score then t else b).speak_score := by
      by_cases hlt : b.speak_score < t.speak_score
      · rw [if_pos hlt]
        exact le_of_lt hlt
      · rw [if_neg hlt]
    have ht : t.speak_score ≤
        (if b.speak_score < t.speak_score then t else b).speak_score := by
      by_cases hlt : b.speak_score < t.speak_score
      · rw [if_pos hlt]
      · rw [if_neg hlt]
        exact le_of_not_lt hlt
    have hself := ih (if b.speak_score < t.speak_score then t else b)
      (if b.speak_score < t.speak_score then t else b)
      (List.mem_cons_self _ _)
    rcases List.mem_cons.mp hu with rfl | hu'
    · exact le_trans hb hself
    rcases List.mem_cons.mp hu' with rfl | hu''
    · exact le_trans ht hself
    · exact ih _ u (List.mem_cons_of_mem _ hu'')

theorem markSpoken_self_mem (buf : List Thought) (t : Thought)
    (hnd : (buf.map Thought.id).Nodup) (hmem : t ∈ buf) :
    { t with spoken := true } ∈ markSpoken buf t.id := by
  induction buf with
  | nil => simp at hmem
  | cons u rest ih =>
    rw [List.map_cons, List.nodup_cons] at hnd
    by_cases hid : u.id = t.id
    · rcases List.mem_cons.mp hmem with rfl | hmem'
      · simp [markSpoken]
      · exact absurd (by rw [hid]; exact List.mem_map_of_mem Thought.id hmem')
          hnd.1
    · have ht : t ∈ rest := by
        rcases List.mem_cons.mp hmem with rfl | hmem'
        · exact absurd rfl hid
        · exact hmem'
      rw [markSpoken, if_neg hid]
      exact List.mem_cons_of_mem u (ih hnd.2 ht)

theorem talkStep_sel_mem (p u : Bool) (ls mi now : Rat) (buf : List Thought)
    (ok : Bool) (t : Thought)
    (hsel : (talkStep p u ls mi now buf ok).selected = some t) :
    t ∈ getSpeakableThoughts now (mi + 10) buf ∧
      ∀ v ∈ getSpeakableThoughts now (mi + 10) buf,
        v.speak_score ≤ t.speak_score := by
  by_cases hpu : (p || u) = true
  · simp [talkStep, hpu] at hsel
  · have hpu' : (p || u) = false := by
      revert hpu
      cases p || u <;> simp
    by_cases hthr : now - ls < mi
    · simp [talkStep, hpu', hthr] at hsel
    · cases hgs : getSpeakableThoughts now (mi + 10) buf with
      | nil => simp [talkStep, hpu', hthr, hgs] at hsel
      | cons t0 rest =>
        have hbt : pythonMax t0 rest = t := by
          by_cases hcond :
              (!u && !((pythonMax t0 rest).content == "") && ok) = true
          · have := hsel
            simp [talkStep, hpu', hthr, hgs, hcond] at this
            exact this
          · have hcond' :
                (!u && !((pythonMax t0 rest).content == "") && ok) = false := by
              revert hcond
              cases (!u && !((pythonMax t0 rest).content == "") && ok) <;> simp
            have := hsel
            simp [talkStep, hpu', hthr, hgs, hcond'] at this
            exact this
        constructor
        · rw [← hbt]
          exact pythonMax_mem t0 rest
        · intro v hv
          rw [← hbt]
          exact pythonMax_le t0 rest v hv

theorem talkStep_throttle (p u : Bool) (ls mi now : Rat) (buf : List Thought)
    (ok : Bool) (h : now - ls < mi) :
    (talkStep p u ls mi now buf ok).selected = none := by
  by_cases hpu : (p || u) = true
  · simp [talkStep, hpu]
  · have hpu' : (p || u) = false := by
      revert hpu
      cases p || u <;> simp
    simp [talkStep, hpu', h]

theorem talkStep_selects (p u : Bool) (ls mi now : Rat) (buf : List Thought)
    (ok : Bool) (hp : p = false) (hu : u = false) (hge : ¬(now - ls < mi))
    (w : Thought) (hw : w ∈ buf) (hsw : speakableB now (mi + 10) w = true) :
    (talkStep p u ls mi now buf ok).selected.isSome = true := by
  subst hp
  subst hu
  have hwf : w ∈ getSpeakableThoughts now (mi + 10) buf :=
    List.mem_filter.mpr ⟨hw, hsw⟩
  cases hgs : getSpeakableThoughts now (mi + 10) buf with
  | nil =>
    rw [hgs] at hwf
    simp at hwf
  | cons t0 rest =>
    simp [talkStep, hge, hgs]
    split <;> simp

theorem talkStep_emit (p u : Bool) (ls mi now : Rat) (buf : List Thought)
    (ok : Bool) (t : Thought)
    (hsel : (talkStep p u ls mi now buf ok).selected = some t)
    (hem : (talkStep p u ls mi now buf ok).emitted = true) :
    (talkStep p u ls mi now buf ok).buf = markSpoken buf t.id ∧
      (talkStep p u ls mi now buf ok).last_spoke = now := by
  by_cases hpu : (p || u) = true
  · simp [talkStep, hpu] at hem
  · have hpu' : (p || u) = false := by
      revert hpu
      cases p || u <;> simp
    by_cases hthr : now - ls < mi
    · simp [talkStep, hpu', hthr] at hem
    · cases hgs : getSpeakableThoughts now (mi + 10) buf with
      | nil => simp [talkStep, hpu', hthr, hgs] at hem
      | cons t0 rest =>
        by_cases hcond :
            (!u && !((pythonMax t0 rest).content == "") && ok) = true
        · have hstep : talkStep p u ls mi now buf ok =
              ⟨some (pythonMax t0 rest), true,
               markSpoken buf (pythonMax t0 rest).id, now⟩ := by
            simp [talkStep, hpu', hthr, hgs, hcond]
          rw [hstep] at hsel
          have hbt : pythonMax t0 rest = t := by simpa using hsel
          rw [hstep, ← hbt]
          exact ⟨rfl, rfl⟩
        · have hcond' :
              (!u && !((pythonMax t0 rest).content == "") && ok) = false := by
            revert hcond
            cases (!u && !((pythonMax t0 rest).content == "") && ok) <;> simp
          simp [talkStep, hpu', hthr, hgs, hcond'] at hem

/-! ## Claim C3 -/

/-- C3: in every state of the free-talk loop, a selected thought is never
one already marked spoken; no selection happens while less than
`min_interval` has elapsed since the previous emission; a selected
thought is always eligible and of maximal speak_score among the eligible
buffer entries, and when the loop is free to select (not paused, user not
speaking, throttle elapsed) any eligible thought forces a selection; a
completed emission marks exactly the selected thought spoken and resets
the throttle timestamp to the current time. -/
theorem C3_speech_scheduler (p u : Bool) (ls mi now : Rat)
    (buf : List Thought) (ok : Bool) :
    (∀ t, (talkStep p u ls mi now buf ok).selected = some t →
      t.spoken = false) ∧
    (now - ls < mi → (talkStep p u ls mi now buf ok).selected = none) ∧
    (∀ t, (talkStep p u ls mi now buf ok).selected = some t →
      t ∈ buf ∧ speakableB now (mi + 10) t = true ∧
      ∀ v ∈ buf, speakableB now (mi + 10) v = true →
        v.speak_score ≤ t.speak_score) ∧
    (p = false → u = false → ¬(now - ls < mi) →
      ∀ w ∈ buf, speakableB now (mi + 10) w = true →
        (talkStep p u ls mi now buf ok).selected.isSome = true) ∧
    (∀ t, (talkStep p u ls mi now buf ok).selected = some t →
      (talkStep p u ls mi now buf ok).emitted = true →
      (talkStep p u ls mi now buf ok).buf = markSpoken buf t.id ∧
      (talkStep p u ls mi now buf ok).last_spoke = now) ∧
    ((buf.map Thought.id).Nodup →
      ∀ t, (talkStep p u ls mi now buf ok).selected = some t →
        (talkStep p u ls mi now buf ok).emitted = true →
        { t with spoken := true } ∈ (talkStep p u ls mi now buf ok).buf) := by
  refine ⟨?_, ?_, ?_, ?_, ?_, ?_⟩
  · intro t ht
    have hf := (talkStep_sel_mem p u ls mi now buf ok t ht).1
    have hs := (List.mem_filter.mp hf).2
    simp only [speakableB, Bool.and_eq_true, Bool.not_eq_true'] at hs
    exact hs.2
  · intro hlt
    exact talkStep_throttle p u ls mi now buf ok hlt
  · intro t ht
    obtain ⟨hf, hmax⟩ := talkStep_sel_mem p u ls mi now buf ok t ht
    obtain ⟨hmem, hspk⟩ := List.mem_filter.mp hf
    refine ⟨hmem, hspk, ?_⟩
    intro v hv hsv
    exact hmax v (List.mem_filter.mpr ⟨hv, hsv⟩)
  · intro hp hu hge w hw hsw
    exact talkStep_selects p u ls mi now buf ok hp hu hge w hw hsw
  · intro t ht hem
    exact talkStep_emit p u ls mi now buf ok t ht hem
  · intro hnd t ht hem
    have hf := (talkStep_sel_mem p u ls mi now buf ok t ht).1
    have hmem : t ∈ buf := (List.mem_filter.mp hf).1
    obtain ⟨hbuf, -⟩ := talkStep_emit p u ls mi now buf ok t ht hem
    rw [hbuf]
    exact markSpoken_self_mem buf t hnd hmem

/-- Witness for C3: a throttled iteration selects nothing, and an
unthrottled iteration over one eligible thought emits it and marks
exactly that thought spoken. -/
theorem C3_witness :
    (talkStep false false 40 30 50 [c3Thought] true).selected = none ∧
    { c3Thought with spoken := true } ∈
      (talkStep false false 0 30 50 [c3Thought] true).buf := by
  have hs : speakableB 50 (30 + 10) c3Thought = true := by
    norm_num [speakableB, c3Thought]
  have hgs : getSpeakableThoughts 50 (30 + 10) [c3Thought] = [c3Thought] := by
    simp [getSpeakableThoughts, hs]
  have hthr : ¬((50 : Rat) - 0 < 30) := by norm_num
  have hthr' : ¬((50 : Rat) < 30) := by norm_num
  have hsel : (talkStep false false 0 30 50 [c3Thought] true).selected =
      some c3Thought := by
    simp [talkStep, hthr, hthr', hgs, pythonMax,
      show (c3Thought.content == "") = false from rfl]
  have hem : (talkStep false false 0 30 50 [c3Thought] true).emitted = true := by
    simp [talkStep, hthr, hthr', hgs, pythonMax,
      show (c3Thought.content == "") = false from rfl]
  exact ⟨(C3_speech_scheduler false false 40 30 50 [c3Thought] true).2.1
      (by norm_num),
    (C3_speech_scheduler false false 0 30 50 [c3Thought] true).2.2.2.2.2
      (by simp) c3Thought hsel hem⟩

/-! ## Claim C10 -/

/-- C10: a thought cycle whose parsed thought text is empty or at most 5
characters long appends nothing — the buffer is returned unchanged — even
when the CATEGORY and SPEAK_SCORE fields parsed fine. -/
theorem C10_short_thought_discarded (toFloat : String → Option Rat)
    (content id : String) (ts : Rat) (buf : List Thought)
    (h : (parseThoughtReply toFloat content).thought_text.length ≤ 5) :
    deepThinkUpdate toFloat content id ts buf = buf := by
  unfold deepThinkUpdate
  have hneg : ¬ ((parseThoughtReply toFloat content).thought_text ≠ "" ∧
      (parseThoughtReply toFloat content).thought_text.length > 5) := by
    rintro ⟨-, hlen⟩
    omega
  simp [hneg]

/-- Witness for C10: a reply with well-formed CATEGORY and SPEAK_SCORE
lines but a 2-character THOUGHT is discarded. -/
theorem C10_witness :
    (parseThoughtReply (fun _ => some (9/10))
      "CATEGORY: opinion\nSPEAK_SCORE: 0.9\nTHOUGHT: ok").thought_text.length ≤ 5 ∧
    deepThinkUpdate (fun _ => some (9/10))
      "CATEGORY: opinion\nSPEAK_SCORE: 0.9\nTHOUGHT: ok" "t9" 0
      [c3Thought] = [c3Thought] :=
  ⟨by decide,
   C10_short_thought_discarded (fun _ => some (9/10))
     "CATEGORY: opinion\nSPEAK_SCORE: 0.9\nTHOUGHT: ok" "t9" 0
     [c3Thought] (by decide)⟩

/-! ### Think-loop run lemmas -/

theorem brainLoop_run (registry : Option (List (String × SkillInfo)))
    (resp : Nat → LLMResponse) (cap k : Nat)
    (hreq : ∀ i, i < k → (resp i).tool_calls ≠ [])
    (hstop : (resp k).tool_calls = []) :
    ∀ n j (ex : List (List ToolResult)), min k cap - j = n → j ≤ min k cap →
      brainLoop registry (fun i => .ok (resp i)) cap j (resp j) ex =
        .ok (min k cap,
          ex ++ (List.range' j (min k cap - j)).map
            (fun i => executeToolCalls registry (resp i).tool_calls),
          resp (min k cap)) := by
  intro n
  induction n with
  | zero =>
    intro j ex h0 hj
    have hj' : j = min k cap := by omega
    subst hj'
    rw [brainLoop]
    have hcond : ¬ ((resp (min k cap)).tool_calls ≠ [] ∧ min k cap < cap) := by
      rcases Nat.le_total k cap with hkc | hck
      · have hm : min k cap = k := by omega
        rw [hm]
        rintro ⟨hne, -⟩
        exact hne hstop
      · have hm : min k cap = cap := by omega
        rw [hm]
        rintro ⟨-, hlt⟩
        omega
    rw [if_neg hcond]
    rw [h0]
    simp
  | succ n ih =>
    intro j ex hn hj
    have hjlt : j < min k cap := by omega
    have hjk : j < k := by omega
    have hjc : j < cap := by omega
    rw [brainLoop, if_pos ⟨hreq j hjk, hjc⟩]
    show brainLoop registry (fun i => .ok (resp i)) cap (j + 1) (resp (j + 1))
        (ex ++ [executeToolCalls registry (resp j).tool_calls]) = _
    rw [ih (j + 1) (ex ++ [executeToolCalls registry (resp j).tool_calls])
      (by omega) (by omega)]
    have hr : List.range' j (min k cap - j) =
        j :: List.range' (j + 1) (min k cap - (j + 1)) := by
      have h1 : min k cap - j = (min k cap - (j + 1)) + 1 := by omega
      rw [h1, List.range'_succ]
    rw [hr]
    simp

theorem brainLoop_error_run (registry : Option (List (String × SkillInfo)))
    (bk : Nat → Except String LLMResponse) (resp : Nat → LLMResponse)
    (cap m : Nat) (e : String)
    (hm : m ≤ cap)
    (hbk : ∀ i, i < m → bk i = .ok (resp i))
    (hbkm : bk m = .error e)
    (hreq : ∀ i, i < m → (resp i).tool_calls ≠ []) :
    ∀ n j (ex : List (List ToolResult)), m - j = n + 1 → j < m →
      brainLoop registry bk cap j (resp j) ex = .error e := by
  intro n
  induction n with
  | zero =>
    intro j ex hn hj
    have hj1 : j + 1 = m := by omega
    rw [brainLoop, if_pos ⟨hreq j hj, by omega⟩]
    rw [hj1, hbkm]
  | succ n ih =>
    intro j ex hn hj
    rw [brainLoop, if_pos ⟨hreq j hj, by omega⟩]
    have hj1 : j + 1 < m := by omega
    rw [hbk (j + 1) hj1]
    show brainLoop registry bk cap (j + 1) (resp (j + 1))
        (ex ++ [executeToolCalls registry (resp j).tool_calls]) = .error e
    exact ih (j + 1) _ (by omega) hj1

/-! ## Claim C1 -/

/-- C1: against a backend stub that requests a capability on queries 1..k
and none on query k+1, the think loop runs exactly k invocation rounds
and the turn returns the query k+1 text when k is below
`max_concurrent_tools`; once k reaches the cap, the loop runs exactly
`max_concurrent_tools` rounds and the turn returns the cap+1-th response
text as final even though that response still requests invocations. -/
theorem C1_think_cap (registry : Option (List (String × SkillInfo)))
    (resp : Nat → LLMResponse) (cap k maxH : Nat) (hist : List ChatMessage)
    (u : String)
    (hreq : ∀ i, i < k → (resp i).tool_calls ≠ [])
    (hstop : (resp k).tool_calls = []) :
    (k < cap →
      brainLoop registry (fun i => .ok (resp i)) cap 0 (resp 0) [] =
        .ok (k, roundsUpTo registry resp k, resp k) ∧
      (roundsUpTo registry resp k).length = k ∧
      ((resp k).content ≠ "" →
        (think registry (fun i => .ok (resp i)) cap maxH hist u).2 =
          (resp k).content)) ∧
    (cap ≤ k →
      brainLoop registry (fun i => .ok (resp i)) cap 0 (resp 0) [] =
        .ok (cap, roundsUpTo registry resp cap, resp cap) ∧
      (roundsUpTo registry resp cap).length = cap ∧
      ((resp cap).content ≠ "" →
        (think registry (fun i => .ok (resp i)) cap maxH hist u).2 =
          (resp cap).content)) := by
  have hrun := brainLoop_run registry resp cap k hreq hstop (min k cap) 0 []
    rfl (by omega)
  have hrounds : ([] : List (List ToolResult)) ++
      (List.range' 0 (min k cap - 0)).map
        (fun i => executeToolCalls registry (resp i).tool_calls) =
      roundsUpTo registry resp (min k cap) := by
    simp [roundsUpTo, List.range_eq_range']
  rw [hrounds] at hrun
  constructor
  · intro hkc
    have hm : min k cap = k := by omega
    rw [hm] at hrun
    refine ⟨hrun, by simp [roundsUpTo], ?_⟩
    intro hne
    simp [think, hrun, finalText, hne]
  · intro hck
    have hm : min k cap = cap := by omega
    rw [hm] at hrun
    refine ⟨hrun, by simp [roundsUpTo], ?_⟩
    intro hne
    simp [think, hrun, finalText, hne]

/-- Witness for C1: with a stub requesting capabilities on the first two
queries only, a turn with cap 5 returns the third response text; with a
stub requesting capabilities on seven queries, a turn with cap 5 stops at
the cap and returns the sixth response text, which still requests a
capability. -/
theorem C1_witness :
    (think none (fun i => .ok (c1Resp i)) 5 10 [] "go").2 = "done" ∧
    (think none (fun i => .ok (c1RespLong i)) 5 10 [] "go").2 = "calling" := by
  constructor
  · exact ((C1_think_cap none c1Resp 5 2 10 [] "go"
      (by intro i hi; simp [c1Resp, hi])
      (by norm_num [c1Resp])).1 (by omega)).2.2 (by decide)
  · exact ((C1_think_cap none c1RespLong 5 7 10 [] "go"
      (by intro i hi; simp [c1RespLong, hi])
      (by norm_num [c1RespLong])).2 (by omega)).2.2 (by decide)

/-! ## Claim C9 -/

/-- C9: when a backend call of the turn raises (after any number of
successful tool rounds), think returns the single error-text response
instead of raising, and the conversation history still holds exactly
what had succeeded: the user message appended at the start of the turn
remains and no assistant message is appended. -/
theorem C9_backend_failure (registry : Option (List (String × SkillInfo)))
    (bk : Nat → Except String LLMResponse) (resp : Nat → LLMResponse)
    (e : String) (cap maxH m : Nat) (hist : List ChatMessage) (u : String)
    (hm : m ≤ cap)
    (hbk : ∀ i, i < m → bk i = .ok (resp i))
    (hbkm : bk m = .error e)
    (hreq : ∀ i, i < m → (resp i).tool_calls ≠ []) :
    think registry bk cap maxH hist u =
      (hist ++ [{ role := "user", content := u }],
       "Error while thinking: " ++ e) := by
  cases m with
  | zero =>
    simp [think, hbkm]
  | succ s =>
    have h0 : bk 0 = .ok (resp 0) := hbk 0 (by omega)
    have hloop : brainLoop registry bk cap 0 (resp 0) [] = .error e :=
      brainLoop_error_run registry bk resp cap (s + 1) e hm hbk hbkm hreq s 0 []
        (by omega) (by omega)
    simp [think, h0, hloop]

/-- Witness for C9: a backend whose second call raises leaves exactly the
user message in history and returns the error text. -/
theorem C9_witness :
    think none c9Backend 5 10 [] "hello" =
      ([{ role := "user", content := "hello" }],
       "Error while thinking: connection refused") :=
  C9_backend_failure none c9Backend c9Resp "connection refused" 5 10 1 []
    "hello" (by omega)
    (by
      intro i hi
      have h0 : i = 0 := by omega
      subst h0
      rfl)
    rfl
    (by
      intro i hi
      have h0 : i = 0 := by omega
      subst h0
      simp [c9Resp])

end Max
